import Mathlib

/-!
Verification of the SeatMaster seat-assignment and QP-demand core.

This file shallowly embeds the three computational modules of the repository —
`utils.py` (`normalize_subject`), `seating.py` (`generate_seating`) and
`qp_arrange.py` (`generate_summaries`, `generate_room_pdfs`) — and proves the
specified properties about them.

Modelling conventions:
- pandas DataFrames are lists of typed records, one structure per table shape;
  column selection/filtering becomes `List.filter`, `iloc[0]` of a filter
  becomes `List.find?`, `groupby` with its default `sort=True` becomes
  "sorted distinct keys, each aggregated over the rows matching the key".
- Python strings are Lean `String`s; `str.strip()` and `str.upper()` are
  modelled character-wise over `String.data` in the ASCII range that the
  program's data exercises (`pyStrip`, `Char.toUpper`).
- A missing value (`NaN`) is `Option.none`.
- Code that can raise (the bench lookup `room_df[room_df["Room"]==room].iloc[0]`
  on an unknown room id) is embedded in `Option`, `none` being the raised
  `IndexError`.
- A PDF document is its list of pages (`List α`); `PdfWriter.add_page` is list
  append, so page order and multiplicity are modelled exactly while the byte
  serialization is out of scope.
- `st.warning` calls are collected into a returned list of the exact warning
  strings, so the warn-and-skip behaviour is observable.
- `value_counts()` sorts by count descending; for tied counts the model keeps
  first-occurrence order (a stable sort), which pandas does not guarantee but
  which is one refinement of its deterministic-per-version behaviour.
-/

namespace SeatMaster

/-- Python's `c.isspace()` for the ASCII range: space and the control characters
tab, LF, VT, FF, CR (code points 9 to 13). -/
def isSpaceChar (c : Char) : Bool :=
  decide (c.toNat = 32 ∨ (9 ≤ c.toNat ∧ c.toNat ≤ 13))

/-- Python's `str.strip()` over the character list of a string. -/
def pyStrip (l : List Char) : List Char :=
  ((l.dropWhile isSpaceChar).reverse.dropWhile isSpaceChar).reverse

/-- `utils.normalize_subject`: `""` on missing/NaN input, otherwise
`str(s).strip().upper()`. -/
def normalize_subject : Option String → String
  | none => ""
  | some s => String.mk ((pyStrip s.data).map Char.toUpper)

/-- Python's `str.split(",")` over the character list of a string: splits at
every comma, keeping empty pieces (so `"".split(",") == [""]`). -/
def splitOnComma : List Char → List (List Char)
  | [] => [[]]
  | c :: rest =>
    if c = ',' then [] :: splitOnComma rest
    else
      match splitOnComma rest with
      | [] => [[c]]
      | t :: ts => (c :: t) :: ts

/-- Python's `<` on strings: lexicographic comparison by code point. -/
def charListLtB : List Char → List Char → Bool
  | [], [] => false
  | [], _ :: _ => true
  | _ :: _, [] => false
  | a :: as, b :: bs =>
    if a.toNat < b.toNat then true
    else if b.toNat < a.toNat then false
    else charListLtB as bs

/-- Python's `<` on strings, lifted to `String`. -/
def strLtB (a b : String) : Bool := charListLtB a.data b.data

/-- Insert into a sorted list, in front of the first element `b` with
`le a b`. -/
def insertSorted {α : Type} (le : α → α → Bool) (a : α) : List α → List α
  | [] => [a]
  | b :: t => if le a b then a :: b :: t else b :: insertSorted le a t

/-- Stable insertion sort by a boolean "less or equal" relation; models the
sorted output of pandas `groupby(sort=True)` / `sort_values` / Python
`sorted`. -/
def insertionSort {α : Type} (le : α → α → Bool) : List α → List α
  | [] => []
  | a :: t => insertSorted le a (insertionSort le t)

/-- Appends an element to the accumulated key list unless it is already
present (one step of building a Python dict's key order). -/
def insertDistinct {κ : Type} [DecidableEq κ] (acc : List κ) (a : κ) : List κ :=
  if a ∈ acc then acc else acc ++ [a]

/-- Distinct elements of a list in first-occurrence order (the key order of a
Python dict / pandas hash table before any sorting). -/
def distinctFirst {κ : Type} [DecidableEq κ] (l : List κ) : List κ :=
  l.foldl insertDistinct []

/-- Lookup in a Python dict modelled as an association list with unique keys
(first binding wins). -/
def lookupDict {α : Type} (d : List (String × α)) (k : String) : Option α :=
  (d.find? (fun kv => kv.1 == k)).map (fun kv => kv.2)

/-! ## Data model (section 3 of the spec; column shapes of section 6) -/

/-- One row of the room capacity table: columns `Room`, `Start`, `End`. -/
structure RoomRow where
  Room : String
  Start : Int
  End : Int
deriving Repr, DecidableEq

/-- One roster row: `Class No`, `Student Name`, and the value of the selected
day column (`none` models NaN / missing). -/
structure StudentRow where
  classNo : String
  studentName : String
  dayVal : Option String
deriving Repr, DecidableEq

/-- One row of the flat seat-assignment table produced by `generate_seating`:
keys `Room`, `Bench`, `Seat`, `Class No`, `Student Name`, `Subjects`. -/
structure SeatSlot where
  Room : String
  Bench : Int
  Seat : String
  classNo : String
  studentName : String
  subjects : String
deriving Repr, DecidableEq

/-! ## Seat Grid Builder (`seating.generate_seating`) -/

/-- The fixed outer seat order of `seating.py`: `seats = ["Left", "Right",
"Center"]`. -/
def seats : List String := ["Left", "Right", "Center"]

/-- Python's `list(range(start, end + 1))`: ascending benches, empty when
`end < start`. -/
def benchRange (s e : Int) : List Int :=
  (List.range (e + 1 - s).toNat).map (fun i : Nat => s + (i : Int))

/-- `room_df[room_df["Room"] == room].iloc[0]`, as the first matching row or
`none` where Python raises `IndexError`. -/
def findRoomRow (room_df : List RoomRow) (room : String) : Option RoomRow :=
  room_df.find? (fun r => r.Room == room)

/-- The bench list a room contributes: the bench range of its first capacity
row, `[]` when the room id is absent (the total functions below only consult
this where presence is hypothesised). -/
def roomBenches (room_df : List RoomRow) (room : String) : List Int :=
  match findRoomRow room_df room with
  | some r => benchRange r.Start r.End
  | none => []

/-- Whether a selected room id resolves to a capacity row with a non-empty
bench range (`Start ≤ End`). -/
def roomNonEmptyB (room_df : List RoomRow) (room : String) : Bool :=
  match findRoomRow room_df room with
  | some r => decide (r.Start ≤ r.End)
  | none => false

/-- The capacity formula of the spec, `(End - Start + 1) * 3`, evaluated on a
room's first capacity row (0 when the room id is absent). -/
def roomCapacityInt (room_df : List RoomRow) (room : String) : Int :=
  match findRoomRow room_df room with
  | some r => (r.End - r.Start + 1) * 3
  | none => 0

/-- Maps a fallible function over a list, failing on the first failure (the
first missing room id aborts the bench-preparation loop). -/
def optionMapList {α β : Type} (f : α → Option β) : List α → Option (List β)
  | [] => some []
  | a :: t =>
    match f a, optionMapList f t with
    | some b, some bs => some (b :: bs)
    | _, _ => none

/-- The interleaved slot list of `generate_seating`: for each seat position in
`seats`, for each room in selection order, for each bench of that room
ascending, one `(Room, Bench, Seat)` entry. -/
def slotList (room_df : List RoomRow) (selected_rooms : List String) :
    Option (List (String × Int × String)) :=
  (optionMapList (fun room =>
      (findRoomRow room_df room).map (fun r => (room, benchRange r.Start r.End)))
      selected_rooms).map
    (fun rb => seats.flatMap (fun seat =>
      rb.flatMap (fun p => p.2.map (fun b => (p.1, b, seat)))))

/-- The `Subjects` value of a filled slot: when a day is selected and the
student's value for it is not NaN, split on commas, keep tokens whose strip is
non-empty, normalize each, and join with `", "`; otherwise the sentinel
`"-"`. -/
def assignSubjects (st : StudentRow) (selectedDay : Bool) : String :=
  if selectedDay then
    match st.dayVal with
    | some raw =>
      let toks := (splitOnComma raw.data).filter (fun t => !(pyStrip t).isEmpty)
      let subjects := toks.map (fun t => normalize_subject (some (String.mk t)))
      if subjects.isEmpty then "-" else String.intercalate ", " subjects
    | none => "-"
  else "-"

/-- Fills slot `i`: roster row `i` when `i < len(students)`, otherwise the
sentinel `"-"` in all three student fields. -/
def fillSlot (students : List StudentRow) (selectedDay : Bool)
    (i : Nat) (slot : String × Int × String) : SeatSlot :=
  match students[i]? with
  | some st =>
    { Room := slot.1, Bench := slot.2.1, Seat := slot.2.2,
      classNo := st.classNo, studentName := st.studentName,
      subjects := assignSubjects st selectedDay }
  | none =>
    { Room := slot.1, Bench := slot.2.1, Seat := slot.2.2,
      classNo := "-", studentName := "-", subjects := "-" }

/-- `seating.generate_seating`, returning the flat seat-assignment table
(`seating_df`). `selectedDay` is the truthiness of the `selected_day`
argument; each student's value for that day is `StudentRow.dayVal`. `none`
models the `IndexError` raised when a selected room id is not in the capacity
table. -/
def generate_seating (room_df : List RoomRow) (students : List StudentRow)
    (selected_rooms : List String) (selectedDay : Bool) : Option (List SeatSlot) :=
  (slotList room_df selected_rooms).map (fun slots =>
    slots.enum.map (fun p => fillSlot students selectedDay p.1 p.2))

/-- The block-interleaved slot order exactly as the spec words it: seat
positions in the fixed outer order Left, Right, Center; within a position,
rooms in selection order; within a room, benches ascending. Stated from the
spec text, to be compared with the order `generate_seating` actually uses. -/
def specBlockInterleavedOrder (room_df : List RoomRow) (selected_rooms : List String) :
    List (String × Int × String) :=
  ["Left", "Right", "Center"].flatMap (fun seat =>
    selected_rooms.flatMap (fun room =>
      (roomBenches room_df room).map (fun b => (room, b, seat))))

/-- The `(Room, Bench, Seat)` triple of every slot of a seat grid. -/
def slotTriples (g : List SeatSlot) : List (String × Int × String) :=
  g.map (fun s => (s.Room, s.Bench, s.Seat))

/-! ## Demand Aggregator (`qp_arrange.generate_summaries`) -/

/-- One `qp_detail` row: one row per (slot, subject) pair. -/
structure QPRecord where
  Room : String
  Bench : Int
  Seat : String
  Subject : String
deriving Repr, DecidableEq

/-- One `room_summary` row. -/
structure RoomSummaryRow where
  Room : String
  TotalStudents : Nat
  SubjectsInRoom : String
deriving Repr, DecidableEq

/-- One `qp_count` row. -/
structure QPCountRow where
  Room : String
  Subject : String
  QP_Needed : Nat
  Bench_Seat_Locations : String
deriving Repr, DecidableEq

/-- One `hall_summary` row. -/
structure HallRow where
  Room : String
  Subject : String
  TotalQPsNeeded : Nat
deriving Repr, DecidableEq

/-- The subject tokens of one `Subjects` cell as `generate_summaries` re-splits
them: split on commas, normalize, keep the non-empty results. -/
def cellSubjects (subjectsCell : String) : List String :=
  ((splitOnComma subjectsCell.data).map
    (fun t => normalize_subject (some (String.mk t)))).filter (fun s => s ≠ "")

/-- The `qp_summary_records` loop: one record per (slot, subject) pair over the
slots whose `Subjects` is not the sentinel `"-"`, in row order. -/
def qpDetailRows (seating_df : List SeatSlot) : List QPRecord :=
  (seating_df.filter (fun row => row.subjects ≠ "-")).flatMap (fun row =>
    (cellSubjects row.subjects).map (fun s_norm =>
      { Room := row.Room, Bench := row.Bench, Seat := row.Seat, Subject := s_norm }))

/-- Python's `sorted` for lists of strings. -/
def strLeB (a b : String) : Bool := !(strLtB b a)

/-- The `summary_records` loop: one row per selected room, counting its seated
students and joining the sorted set of its normalized subjects. -/
def room_summary (seating_df : List SeatSlot) (ordered_rooms : List String) :
    List RoomSummaryRow :=
  ordered_rooms.map (fun room =>
    let rs := seating_df.filter (fun r => r.Room == room)
    let room_subjects := (rs.filter (fun r => r.subjects ≠ "-")).flatMap
      (fun r => cellSubjects r.subjects)
    { Room := room,
      TotalStudents := (rs.filter (fun r => r.classNo ≠ "-")).length,
      SubjectsInRoom :=
        String.intercalate ", " (insertionSort strLeB (distinctFirst room_subjects)) })

/-- Lexicographic `<` on (Room, Subject) keys, as pandas sorts group keys. -/
def pairLtB (a b : String × String) : Bool :=
  strLtB a.1 b.1 || (a.1 == b.1 && strLtB a.2 b.2)

/-- Lexicographic `≤` on (Room, Subject) keys. -/
def pairLeB (a b : String × String) : Bool := !(pairLtB b a)

/-- The group keys of `groupby(["Room","Subject"])` with its default
`sort=True`: the distinct (Room, Subject) pairs in ascending lexicographic
order. -/
def groupKeys (detail : List QPRecord) : List (String × String) :=
  insertionSort pairLeB (distinctFirst (detail.map (fun r => (r.Room, r.Subject))))

/-- The `qp_count_df` table: grouped by (Room, Subject); `QP_Needed` is the
group's row count and `Bench_Seat_Locations` joins `f"{bench}-{seat}"` over the
group's rows in encounter order. -/
def qp_count_df (detail : List QPRecord) : List QPCountRow :=
  (groupKeys detail).map (fun k =>
    let grp := detail.filter (fun r => r.Room == k.1 && r.Subject == k.2)
    { Room := k.1, Subject := k.2,
      QP_Needed := grp.length,
      Bench_Seat_Locations :=
        String.intercalate ", " (grp.map (fun r => toString r.Bench ++ "-" ++ r.Seat)) })

/-- The `hall_qp_summary_df` table: grouped by (Room, Subject) with
`.size()` as `Total QPs Needed`. -/
def hall_df (detail : List QPRecord) : List HallRow :=
  (insertionSort pairLeB (distinctFirst (detail.map (fun r => (r.Room, r.Subject))))).map
    (fun k =>
      { Room := k.1, Subject := k.2,
        TotalQPsNeeded := (detail.filter (fun r => r.Room == k.1 && r.Subject == k.2)).length })

/-- `qp_arrange.generate_summaries`: returns (room_summary, qp_detail,
qp_count, hall_summary). -/
def generate_summaries (seating_df : List SeatSlot) (ordered_rooms : List String) :
    List RoomSummaryRow × List QPRecord × List QPCountRow × List HallRow :=
  (room_summary seating_df ordered_rooms,
   qpDetailRows seating_df,
   qp_count_df (qpDetailRows seating_df),
   hall_df (qpDetailRows seating_df))

/-! ## QP Bundle Assembler (`qp_arrange.generate_room_pdfs`) -/

/-- One row of the QP mapping table: columns `QP Code`, `Subject Name`. -/
structure MappingRow where
  QPCode : String
  SubjectName : String
deriving Repr, DecidableEq

/-- One `room_summary_rows` record before grouping. -/
structure RoomQPRaw where
  Room : String
  Subject : String
  QPCode : String
  Students : Nat
deriving Repr, DecidableEq

/-- One row of the final `room_qp_summary` table, with the merged per-room
`Total Students` column. -/
structure RoomQPRow where
  Room : String
  Subject : String
  QPCode : String
  Students : Nat
  TotalStudents : Nat
deriving Repr, DecidableEq

/-- The exact text of the missing-mapping warning. -/
def warnNoCode (subj room : String) : String :=
  "No QP code found for subject '" ++ subj ++ "' (room " ++ room ++ ")"

/-- The exact text of the missing-upload warning. -/
def warnNoPdf (code subj room : String) : String :=
  "No uploaded PDF found for QP code '" ++ code ++ "' (subject " ++ subj ++ ", room " ++ room ++ ")"

/-- `mapping_df[mapping_df["Subject Name"] == subj]["QP Code"].values` and the
`matched[0]` take: the first mapping row whose `Subject Name` equals the
subject, `none` when there is no match. -/
def firstQPCode (mapping : List MappingRow) (subj : String) : Option String :=
  ((mapping.filter (fun m => m.SubjectName == subj)).map (fun m => m.QPCode)).head?

/-- `room_rows["Subject"].value_counts().to_dict()`: distinct subjects with
their row counts, sorted by count descending (ties in first-occurrence
order). -/
def value_counts (l : List String) : List (String × Nat) :=
  insertionSort (fun a b => decide (b.2 ≤ a.2))
    ((distinctFirst l).map (fun s => (s, (l.filter (fun x => x == s)).length)))

/-- One iteration of the subject loop: resolve the subject to a QP code and an
uploaded PDF, appending either its replicated pages and summary row or a
warning. The accumulator is (writer pages, summary rows, warnings). -/
def assembleSubject {α : Type} (mapping : List MappingRow)
    (uploaded_qps : List (String × List α)) (room : String)
    (acc : List α × List RoomQPRaw × List String) (sc : String × Nat) :
    List α × List RoomQPRaw × List String :=
  match firstQPCode mapping sc.1 with
  | none => (acc.1, acc.2.1, acc.2.2 ++ [warnNoCode sc.1 room])
  | some qp_code =>
    match lookupDict uploaded_qps qp_code with
    | none => (acc.1, acc.2.1, acc.2.2 ++ [warnNoPdf qp_code sc.1 room])
    | some pages =>
      (acc.1 ++ (List.replicate sc.2 pages).flatten,
       acc.2.1 ++ [{ Room := room, Subject := sc.1, QPCode := qp_code, Students := sc.2 }],
       acc.2.2)

/-- The whole subject loop for one room. -/
def assembleRoom {α : Type} (mapping : List MappingRow)
    (uploaded_qps : List (String × List α)) (room : String)
    (subject_counts : List (String × Nat)) :
    List α × List RoomQPRaw × List String :=
  subject_counts.foldl (assembleSubject mapping uploaded_qps room) ([], [], [])

/-- One iteration of the room loop: skip rooms with no detail rows, otherwise
assemble the room and emit its PDF entry only when it has at least one
page. -/
def processRoom {α : Type} (mapping : List MappingRow)
    (uploaded_qps : List (String × List α)) (qp_summary_df : List QPRecord)
    (acc : List (String × List α) × List RoomQPRaw × List String) (room : String) :
    List (String × List α) × List RoomQPRaw × List String :=
  let room_rows := qp_summary_df.filter (fun r => r.Room == room)
  if room_rows.isEmpty then acc
  else
    let res := assembleRoom mapping uploaded_qps room
      (value_counts (room_rows.map (fun r => r.Subject)))
    (acc.1 ++ (if res.1.isEmpty then [] else [(room, res.1)]),
     acc.2.1 ++ res.2.1,
     acc.2.2 ++ res.2.2)

/-- Lexicographic `<` on (Room, Subject, QP Code) keys. -/
def tripleLtB (a b : String × String × String) : Bool :=
  strLtB a.1 b.1 ||
    (a.1 == b.1 && (strLtB a.2.1 b.2.1 ||
      (a.2.1 == b.2.1 && strLtB a.2.2 b.2.2)))

/-- Lexicographic `≤` on (Room, Subject, QP Code) keys. -/
def tripleLeB (a b : String × String × String) : Bool := !(tripleLtB b a)

/-- The `groupby(["Room", "Subject", "QP Code"]).agg(sum)` of the raw summary
rows followed by the stable `sort_values("Room")` and the per-room
`Total Students` merge. -/
def postSummary (raw : List RoomQPRaw) : List RoomQPRow :=
  if raw.isEmpty then []
  else
    let keys := insertionSort tripleLeB
      (distinctFirst (raw.map (fun r => (r.Room, r.Subject, r.QPCode))))
    let grouped := keys.map (fun k =>
      (k, ((raw.filter (fun r =>
          r.Room == k.1 && r.Subject == k.2.1 && r.QPCode == k.2.2)).map
        (fun r => r.Students)).sum))
    grouped.map (fun kg =>
      { Room := kg.1.1, Subject := kg.1.2.1, QPCode := kg.1.2.2,
        Students := kg.2,
        TotalStudents :=
          ((grouped.filter (fun kg2 => kg2.1.1 == kg.1.1)).map (fun kg2 => kg2.2)).sum })

/-- `qp_arrange.generate_room_pdfs`: returns (room_pdfs as an insertion-ordered
map from room to its bundled pages, room_qp_summary, warnings). A `none`
mapping table models the `mapping_df is None` guard. -/
def generate_room_pdfs {α : Type} (mapping_df : Option (List MappingRow))
    (qp_summary_df : List QPRecord) (uploaded_qps : List (String × List α))
    (ordered_rooms : List String) :
    List (String × List α) × List RoomQPRow × List String :=
  let res : List (String × List α) × List RoomQPRaw × List String :=
    match mapping_df with
    | none => ([], [], [])
    | some mapping =>
      if qp_summary_df.isEmpty || uploaded_qps.isEmpty then ([], [], [])
      else ordered_rooms.foldl (processRoom mapping uploaded_qps qp_summary_df) ([], [], [])
  (res.1, postSummary res.2.1, res.2.2)

/-! ## Character and normalization lemmas -/

theorem toNat_charOfNat_of_lt {n : Nat} (h : n < 55296) : (Char.ofNat n).toNat = n := by
  have hv : n.isValidChar := Or.inl h
  simp [Char.ofNat, dif_pos hv, Char.ofNatAux, Char.toNat, UInt32.toNat]

theorem toNat_toUpper (c : Char) :
    (Char.toUpper c).toNat = if 97 ≤ c.toNat ∧ c.toNat ≤ 122 then c.toNat - 32 else c.toNat := by
  unfold Char.toUpper
  by_cases h : 97 ≤ c.toNat ∧ c.toNat ≤ 122
  · rw [if_pos ?_, if_pos h]
    · exact toNat_charOfNat_of_lt (by omega)
    · exact ⟨h.1, h.2⟩
  · rw [if_neg ?_, if_neg h]
    exact fun hc => h ⟨hc.1, hc.2⟩

theorem toUpper_def_eq (c : Char) :
    Char.toUpper c = if 97 ≤ c.toNat ∧ c.toNat ≤ 122 then Char.ofNat (c.toNat - 32) else c := rfl

theorem toUpper_toUpper (c : Char) : (Char.toUpper c).toUpper = Char.toUpper c := by
  by_cases h : 97 ≤ c.toNat ∧ c.toNat ≤ 122
  · have h3 : (Char.toUpper c).toNat = c.toNat - 32 := by
      rw [toNat_toUpper, if_pos h]
    rw [toUpper_def_eq (Char.toUpper c), if_neg (by rw [h3]; omega)]
  · have h2 : Char.toUpper c = c := by rw [toUpper_def_eq, if_neg h]
    rw [h2, h2]

theorem isSpaceChar_toUpper (c : Char) : isSpaceChar (Char.toUpper c) = isSpaceChar c := by
  simp only [isSpaceChar]
  rw [toNat_toUpper]
  by_cases h : 97 ≤ c.toNat ∧ c.toNat ≤ 122
  · rw [if_pos h, decide_eq_decide]
    omega
  · rw [if_neg h]

theorem dropWhile_self_idem (p : Char → Bool) (l : List Char) :
    (l.dropWhile p).dropWhile p = l.dropWhile p := by
  induction l with
  | nil => rfl
  | cons a t ih =>
    by_cases h : p a
    · rw [List.dropWhile_cons_of_pos h]
      exact ih
    · rw [List.dropWhile_cons_of_neg h, List.dropWhile_cons_of_neg h]

theorem dropWhile_eq_cons_head_false (p : Char → Bool) :
    ∀ (l : List Char) {a : Char} {t : List Char}, l.dropWhile p = a :: t → p a = false := by
  intro l
  induction l with
  | nil => intro a t h; simp [List.dropWhile] at h
  | cons b m ih =>
    intro a t h
    by_cases hb : p b
    · rw [List.dropWhile_cons_of_pos hb] at h
      exact ih h
    · rw [List.dropWhile_cons_of_neg hb] at h
      cases h
      exact Bool.of_not_eq_true hb

theorem dropWhile_eq_self_of_head_of_drop (p : Char → Bool) {l m : List Char}
    (hpre : ∃ t, m ++ t = l.dropWhile p) : m.dropWhile p = m := by
  match m with
  | [] => rfl
  | a :: t =>
    obtain ⟨u, hu⟩ := hpre
    have : l.dropWhile p = a :: (t ++ u) := by rw [← hu]; rfl
    have hpa := dropWhile_eq_cons_head_false p l this
    rw [List.dropWhile_cons_of_neg (by simp [hpa])]

theorem pyStrip_dropWhile (l : List Char) : (pyStrip l).dropWhile isSpaceChar = pyStrip l := by
  apply dropWhile_eq_self_of_head_of_drop isSpaceChar (l := l)
  unfold pyStrip
  obtain ⟨u, hu⟩ := (List.dropWhile_suffix (l := (l.dropWhile isSpaceChar).reverse) isSpaceChar)
  refine ⟨u.reverse, ?_⟩
  have := congrArg List.reverse hu
  rw [List.reverse_append, List.reverse_reverse] at this
  exact this

theorem pyStrip_idem (l : List Char) : pyStrip (pyStrip l) = pyStrip l := by
  show (((pyStrip l).dropWhile isSpaceChar).reverse.dropWhile isSpaceChar).reverse = pyStrip l
  rw [pyStrip_dropWhile]
  unfold pyStrip
  rw [List.reverse_reverse, dropWhile_self_idem]

theorem pyStrip_map_toUpper (l : List Char) :
    pyStrip (l.map Char.toUpper) = (pyStrip l).map Char.toUpper := by
  have hf : (isSpaceChar ∘ Char.toUpper) = isSpaceChar := funext isSpaceChar_toUpper
  unfold pyStrip
  rw [List.dropWhile_map, hf, ← List.map_reverse, List.dropWhile_map, hf, ← List.map_reverse]

/-- C9: the Subject Normalizer returns `""` for missing/NaN input and otherwise
strips and upper-cases; it is idempotent (`normalize(normalize(x)) ==
normalize(x)` for all strings, a normalized value being a string and hence not
NaN), and it is case- and whitespace-insensitive, e.g. on `" abc "` versus
`"ABC"`. -/
theorem C9_normalize_contract :
    normalize_subject none = "" ∧
    (∀ s : String, normalize_subject (some s) = String.mk ((pyStrip s.data).map Char.toUpper)) ∧
    (∀ x : String,
      normalize_subject (some (normalize_subject (some x))) = normalize_subject (some x)) ∧
    normalize_subject (some " abc ") = normalize_subject (some "ABC") ∧
    normalize_subject (some " abc ") = "ABC" := by
  refine ⟨rfl, fun s => rfl, fun x => ?_, by decide, by decide⟩
  show String.mk ((pyStrip ((pyStrip x.data).map Char.toUpper)).map Char.toUpper) = _
  rw [pyStrip_map_toUpper, pyStrip_idem, List.map_map]
  congr 1
  apply List.map_congr_left
  intro c _
  exact toUpper_toUpper c

/-! ## Seat Grid Builder lemmas -/

theorem optionMapList_eq_some_map {α β : Type} (f : α → Option β) (g : α → β)
    (l : List α) (h : ∀ a ∈ l, f a = some (g a)) :
    optionMapList f l = some (l.map g) := by
  induction l with
  | nil => rfl
  | cons a t ih =>
    have h1 := h a (List.mem_cons_self a t)
    have h2 := ih (fun x hx => h x (List.mem_cons_of_mem a hx))
    simp only [optionMapList, h1, h2, List.map_cons]

theorem slotList_eq_of_valid (room_df : List RoomRow) (selected_rooms : List String)
    (hv : ∀ room ∈ selected_rooms, (findRoomRow room_df room).isSome) :
    slotList room_df selected_rooms =
      some (specBlockInterleavedOrder room_df selected_rooms) := by
  unfold slotList
  rw [optionMapList_eq_some_map _ (fun room => (room, roomBenches room_df room)) _ ?_]
  · rw [Option.map_some']
    apply congrArg
    unfold specBlockInterleavedOrder
    show seats.flatMap _ = seats.flatMap _
    apply congrArg
    funext seat
    rw [List.flatMap_map]
  · intro a ha
    obtain ⟨r, hr⟩ := Option.isSome_iff_exists.mp (hv a ha)
    rw [hr, Option.map_some']
    show some (a, benchRange r.Start r.End) = some (a, roomBenches room_df a)
    have : roomBenches room_df a = benchRange r.Start r.End := by
      simp only [roomBenches, hr]
    rw [this]

theorem generate_seating_eq_of_valid (room_df : List RoomRow) (students : List StudentRow)
    (selected_rooms : List String) (selectedDay : Bool)
    (hv : ∀ room ∈ selected_rooms, (findRoomRow room_df room).isSome) :
    generate_seating room_df students selected_rooms selectedDay =
      some ((specBlockInterleavedOrder room_df selected_rooms).enum.map
        (fun p => fillSlot students selectedDay p.1 p.2)) := by
  unfold generate_seating
  rw [slotList_eq_of_valid _ _ hv, Option.map_some']

theorem slotTriples_enum_fill (students : List StudentRow) (selectedDay : Bool)
    (slots : List (String × Int × String)) :
    slotTriples (slots.enum.map (fun p => fillSlot students selectedDay p.1 p.2)) = slots := by
  unfold slotTriples
  rw [List.map_map]
  have hcomp : ((fun s : SeatSlot => (s.Room, s.Bench, s.Seat)) ∘
      fun p : Nat × (String × Int × String) => fillSlot students selectedDay p.1 p.2) =
      Prod.snd := by
    funext p
    show ((fillSlot students selectedDay p.1 p.2).Room,
      (fillSlot students selectedDay p.1 p.2).Bench,
      (fillSlot students selectedDay p.1 p.2).Seat) = p.2
    unfold fillSlot
    cases students[p.1]? <;> rfl
  rw [hcomp, List.enum_map_snd]

/-- C1: on valid input the Seat Grid Builder raises no error whatever the
roster length: slot `i` of the block-interleaved order (Left, then Right,
then Center; rooms in selection order; benches ascending) carries roster row
`i`'s class number and student name whenever row `i` exists, every slot whose
index is at least the roster length carries the sentinel `"-"` in all three
student fields, and roster rows beyond the grid length are silently
dropped. -/
theorem C1_block_interleaved_assignment (room_df : List RoomRow)
    (students : List StudentRow) (selected_rooms : List String) (selectedDay : Bool)
    (hv : ∀ room ∈ selected_rooms, (findRoomRow room_df room).isSome) :
    ∃ g, generate_seating room_df students selected_rooms selectedDay = some g ∧
      g.length = (specBlockInterleavedOrder room_df selected_rooms).length ∧
      (∀ (i : Nat) (st : StudentRow) (slot : SeatSlot), students[i]? = some st → g[i]? = some slot →
        slot.classNo = st.classNo ∧ slot.studentName = st.studentName ∧
        (specBlockInterleavedOrder room_df selected_rooms)[i]? =
          some (slot.Room, slot.Bench, slot.Seat)) ∧
      (∀ (i : Nat) (slot : SeatSlot), students[i]? = none → g[i]? = some slot →
        slot.classNo = "-" ∧ slot.studentName = "-" ∧ slot.subjects = "-" ∧
        (specBlockInterleavedOrder room_df selected_rooms)[i]? =
          some (slot.Room, slot.Bench, slot.Seat)) := by
  refine ⟨_, generate_seating_eq_of_valid room_df students selected_rooms selectedDay hv,
    ?_, ?_, ?_⟩
  · rw [List.length_map, List.enum_length]
  · intro i st slot hst hslot
    rw [List.getElem?_map, List.getElem?_enum] at hslot
    cases h : (specBlockInterleavedOrder room_df selected_rooms)[i]? with
    | none => rw [h] at hslot; simp at hslot
    | some sp =>
      rw [h] at hslot
      simp only [Option.map_some'] at hslot
      have hs := Option.some.inj hslot
      rw [← hs]
      refine ⟨?_, ?_, ?_⟩
      · simp [fillSlot, hst]
      · simp [fillSlot, hst]
      · simp [fillSlot, hst, h]
  · intro i slot hst hslot
    rw [List.getElem?_map, List.getElem?_enum] at hslot
    cases h : (specBlockInterleavedOrder room_df selected_rooms)[i]? with
    | none => rw [h] at hslot; simp at hslot
    | some sp =>
      rw [h] at hslot
      simp only [Option.map_some'] at hslot
      have hs := Option.some.inj hslot
      rw [← hs]
      refine ⟨?_, ?_, ?_, ?_⟩
      · simp [fillSlot, hst]
      · simp [fillSlot, hst]
      · simp [fillSlot, hst]
      · simp [fillSlot, hst, h]

/-- Witness for C1 at a concrete valid input: two rooms of one bench each and
a three-student roster. -/
theorem C1_block_interleaved_assignment_witness :
    (∀ room ∈ ["A", "B"], (findRoomRow [⟨"A", 1, 1⟩, ⟨"B", 2, 2⟩] room).isSome) ∧
    (∃ g, generate_seating [⟨"A", 1, 1⟩, ⟨"B", 2, 2⟩]
        [⟨"s1", "n1", none⟩, ⟨"s2", "n2", none⟩, ⟨"s3", "n3", none⟩] ["A", "B"] false = some g ∧
      g.length = (specBlockInterleavedOrder [⟨"A", 1, 1⟩, ⟨"B", 2, 2⟩] ["A", "B"]).length ∧
      (∀ (i : Nat) (st : StudentRow) (slot : SeatSlot),
        ([⟨"s1", "n1", none⟩, ⟨"s2", "n2", none⟩, ⟨"s3", "n3", none⟩] : List StudentRow)[i]? =
          some st → g[i]? = some slot →
        slot.classNo = st.classNo ∧ slot.studentName = st.studentName ∧
        (specBlockInterleavedOrder [⟨"A", 1, 1⟩, ⟨"B", 2, 2⟩] ["A", "B"])[i]? =
          some (slot.Room, slot.Bench, slot.Seat)) ∧
      (∀ (i : Nat) (slot : SeatSlot),
        ([⟨"s1", "n1", none⟩, ⟨"s2", "n2", none⟩, ⟨"s3", "n3", none⟩] : List StudentRow)[i]? =
          none → g[i]? = some slot →
        slot.classNo = "-" ∧ slot.studentName = "-" ∧ slot.subjects = "-" ∧
        (specBlockInterleavedOrder [⟨"A", 1, 1⟩, ⟨"B", 2, 2⟩] ["A", "B"])[i]? =
          some (slot.Room, slot.Bench, slot.Seat))) :=
  ⟨by decide,
   C1_block_interleaved_assignment [⟨"A", 1, 1⟩, ⟨"B", 2, 2⟩]
     [⟨"s1", "n1", none⟩, ⟨"s2", "n2", none⟩, ⟨"s3", "n3", none⟩] ["A", "B"] false (by decide)⟩

theorem length_benchRange (s e : Int) : (benchRange s e).length = (e + 1 - s).toNat := by
  rw [benchRange, List.length_map, List.length_range]

theorem spec_length (room_df : List RoomRow) (sel : List String) :
    (specBlockInterleavedOrder room_df sel).length =
      3 * (sel.map (fun room => (roomBenches room_df room).length)).sum := by
  have hlen : ∀ seat : String,
      (List.map (List.length ∘ fun room =>
        List.map (fun b => (room, b, seat)) (roomBenches room_df room)) sel).sum
        = (List.map (fun room => (roomBenches room_df room).length) sel).sum := by
    intro seat
    congr 1
    apply List.map_congr_left
    intro room _
    simp [List.length_map]
  unfold specBlockInterleavedOrder
  rw [List.length_flatMap]
  simp only [List.map_cons, List.map_nil, List.sum_cons, List.sum_nil, Function.comp,
    List.length_flatMap]
  rw [hlen "Left", hlen "Right", hlen "Center"]
  omega

theorem sum_capacity_int (room_df : List RoomRow) :
    ∀ sel : List String,
      (∀ room ∈ sel, ∃ r, findRoomRow room_df room = some r ∧ r.Start ≤ r.End) →
      ((3 * (sel.map (fun room => (roomBenches room_df room).length)).sum : Nat) : Int) =
        (sel.map (roomCapacityInt room_df)).sum := by
  intro sel
  induction sel with
  | nil => intro _; simp
  | cons a t ih =>
    intro h
    obtain ⟨r, hr, hle⟩ := h a (List.mem_cons_self a t)
    have iht := ih (fun x hx => h x (List.mem_cons_of_mem a hx))
    have hhead : roomBenches room_df a = benchRange r.Start r.End := by
      simp only [roomBenches, hr]
    have hcap : roomCapacityInt room_df a = (r.End - r.Start + 1) * 3 := by
      simp only [roomCapacityInt, hr]
    simp only [List.map_cons, List.sum_cons]
    rw [hhead, hcap, length_benchRange, ← iht]
    push_cast
    omega

theorem sum_capacity_filter_int (room_df : List RoomRow) :
    ∀ sel : List String,
      (∀ room ∈ sel, (findRoomRow room_df room).isSome) →
      ((3 * (sel.map (fun room => (roomBenches room_df room).length)).sum : Nat) : Int) =
        ((sel.filter (fun room => roomNonEmptyB room_df room)).map
          (roomCapacityInt room_df)).sum := by
  intro sel
  induction sel with
  | nil => intro _; simp
  | cons a t ih =>
    intro h
    obtain ⟨r, hr⟩ := Option.isSome_iff_exists.mp (h a (List.mem_cons_self a t))
    have iht := ih (fun x hx => h x (List.mem_cons_of_mem a hx))
    have hhead : roomBenches room_df a = benchRange r.Start r.End := by
      simp only [roomBenches, hr]
    have hcap : roomCapacityInt room_df a = (r.End - r.Start + 1) * 3 := by
      simp only [roomCapacityInt, hr]
    by_cases hb : r.Start ≤ r.End
    · have hfil : roomNonEmptyB room_df a = true := by
        simp [roomNonEmptyB, hr, hb]
      rw [List.filter_cons_of_pos hfil]
      simp only [List.map_cons, List.sum_cons]
      rw [hhead, hcap, length_benchRange, ← iht]
      push_cast
      omega
    · have hfil : roomNonEmptyB room_df a = false := by
        simp only [roomNonEmptyB, hr, decide_eq_false_iff_not]
        exact hb
      rw [List.filter_cons_of_neg (by simp [hfil])]
      simp only [List.map_cons, List.sum_cons]
      rw [hhead, length_benchRange]
      have h0 : (r.End + 1 - r.Start).toNat = 0 := by omega
      rw [h0, Nat.zero_add]
      exact iht

/-- C2: on valid input (every selected room id present, with the RoomCapacity
invariant `Start ≤ End`), the number of slots equals the sum over the selected
rooms — duplicates counted again — of `(End - Start + 1) * 3`. -/
theorem C2_total_slot_count (room_df : List RoomRow) (students : List StudentRow)
    (selected_rooms : List String) (selectedDay : Bool)
    (hv : ∀ room ∈ selected_rooms, ∃ r, findRoomRow room_df room = some r ∧ r.Start ≤ r.End) :
    ∃ g, generate_seating room_df students selected_rooms selectedDay = some g ∧
      (g.length : Int) = (selected_rooms.map (roomCapacityInt room_df)).sum := by
  have hv' : ∀ room ∈ selected_rooms, (findRoomRow room_df room).isSome := by
    intro room hroom
    obtain ⟨r, hr, _⟩ := hv room hroom
    simp [hr]
  refine ⟨_, generate_seating_eq_of_valid room_df students selected_rooms selectedDay hv', ?_⟩
  rw [List.length_map, List.enum_length, spec_length]
  exact sum_capacity_int room_df selected_rooms hv

/-- Witness for C2: two rooms with bench ranges 1–2 and 5–5 and an empty
roster give 9 slots. -/
theorem C2_total_slot_count_witness :
    (∀ room ∈ ["A", "B"], ∃ r,
      findRoomRow [⟨"A", 1, 2⟩, ⟨"B", 5, 5⟩] room = some r ∧ r.Start ≤ r.End) ∧
    (∃ g, generate_seating [⟨"A", 1, 2⟩, ⟨"B", 5, 5⟩] [] ["A", "B"] false = some g ∧
      (g.length : Int) = ((["A", "B"].map (roomCapacityInt [⟨"A", 1, 2⟩, ⟨"B", 5, 5⟩]))).sum) :=
  ⟨by decide, C2_total_slot_count [⟨"A", 1, 2⟩, ⟨"B", 5, 5⟩] [] ["A", "B"] false (by decide)⟩

theorem mem_spec_parts (room_df : List RoomRow) (sel : List String)
    {x : String × Int × String} (hx : x ∈ specBlockInterleavedOrder room_df sel) :
    x.1 ∈ sel ∧ x.2.1 ∈ roomBenches room_df x.1 := by
  unfold specBlockInterleavedOrder at hx
  simp only [List.mem_flatMap, List.mem_map] at hx
  obtain ⟨seat, _, room, hroom, b, hb, hxeq⟩ := hx
  rw [← hxeq]
  exact ⟨hroom, hb⟩

/-- C10: rooms whose capacity row has `End < Start` raise no error and
contribute zero slots, so the total slot count is the capacity sum over only
the rooms with `Start ≤ End`, and no slot at all lies in a negative-range
room. -/
theorem C10_negative_range_rooms (room_df : List RoomRow) (students : List StudentRow)
    (selected_rooms : List String) (selectedDay : Bool)
    (hv : ∀ room ∈ selected_rooms, (findRoomRow room_df room).isSome) :
    ∃ g, generate_seating room_df students selected_rooms selectedDay = some g ∧
      (g.length : Int) =
        ((selected_rooms.filter (fun room => roomNonEmptyB room_df room)).map
          (roomCapacityInt room_df)).sum ∧
      (∀ room r, findRoomRow room_df room = some r → r.End < r.Start →
        ∀ slot ∈ g, slot.Room ≠ room) := by
  refine ⟨_, generate_seating_eq_of_valid room_df students selected_rooms selectedDay hv,
    ?_, ?_⟩
  · rw [List.length_map, List.enum_length, spec_length]
    exact sum_capacity_filter_int room_df selected_rooms hv
  · intro room r hr hlt slot hslot heq
    have hmem : (slot.Room, slot.Bench, slot.Seat) ∈
        slotTriples ((specBlockInterleavedOrder room_df selected_rooms).enum.map
          (fun p => fillSlot students selectedDay p.1 p.2)) :=
      List.mem_map_of_mem _ hslot
    rw [slotTriples_enum_fill] at hmem
    have hb := (mem_spec_parts room_df selected_rooms hmem).2
    rw [heq] at hb
    simp only [roomBenches, hr] at hb
    have h0 : (r.End + 1 - r.Start).toNat = 0 := by omega
    simp [benchRange, h0] at hb

/-- Witness for C10: a room with bench range 5–2 yields no slots while a
well-formed room still yields its three. -/
theorem C10_negative_range_rooms_witness :
    (∀ room ∈ ["A", "B"], (findRoomRow [⟨"A", 5, 2⟩, ⟨"B", 1, 1⟩] room).isSome) ∧
    (∃ g, generate_seating [⟨"A", 5, 2⟩, ⟨"B", 1, 1⟩] [] ["A", "B"] false = some g ∧
      (g.length : Int) =
        ((["A", "B"].filter (fun room => roomNonEmptyB [⟨"A", 5, 2⟩, ⟨"B", 1, 1⟩] room)).map
          (roomCapacityInt [⟨"A", 5, 2⟩, ⟨"B", 1, 1⟩])).sum ∧
      (∀ room r, findRoomRow [⟨"A", 5, 2⟩, ⟨"B", 1, 1⟩] room = some r → r.End < r.Start →
        ∀ slot ∈ g, slot.Room ≠ room)) :=
  ⟨by decide,
   C10_negative_range_rooms [⟨"A", 5, 2⟩, ⟨"B", 1, 1⟩] [] ["A", "B"] false (by decide)⟩

theorem nodup_benchRange (s e : Int) : (benchRange s e).Nodup := by
  apply List.Nodup.map
  · intro a b hab
    have hab2 : s + (a : Int) = s + (b : Int) := hab
    omega
  · exact List.nodup_range _

theorem length_filter_eq_one_of_nodup {α : Type} [DecidableEq α] :
    ∀ (l : List α), l.Nodup → ∀ t ∈ l, (l.filter (fun x => x = t)).length = 1 := by
  intro l
  induction l with
  | nil => intro _ t ht; simp at ht
  | cons a m ih =>
    intro hnd t ht
    obtain ⟨ha, hm⟩ := List.nodup_cons.mp hnd
    rcases List.mem_cons.mp ht with rfl | htm
    · rw [List.filter_cons_of_pos (by simp)]
      have hnilf : m.filter (fun x => x = t) = [] := by
        apply List.filter_eq_nil_iff.mpr
        intro x hx
        simp only [decide_eq_true_eq]
        intro heq
        exact ha (heq ▸ hx)
      simp [hnilf]
    · rw [List.filter_cons_of_neg ?_]
      · exact ih hm t htm
      · simp only [decide_eq_true_eq]
        intro heq
        exact ha (heq ▸ htm)

theorem nodup_roomBenches (room_df : List RoomRow) (room : String) :
    (roomBenches room_df room).Nodup := by
  cases h : findRoomRow room_df room with
  | none => simp only [roomBenches, h]; exact List.nodup_nil
  | some r => simp only [roomBenches, h]; exact nodup_benchRange _ _

theorem nodup_spec (room_df : List RoomRow) (sel : List String) (hnd : sel.Nodup) :
    (specBlockInterleavedOrder room_df sel).Nodup := by
  have hmem : ∀ (seat : String) (x : String × Int × String),
      x ∈ sel.flatMap (fun room => (roomBenches room_df room).map (fun b => (room, b, seat))) →
      x.2.2 = seat := by
    intro seat x hx
    simp only [List.mem_flatMap, List.mem_map] at hx
    obtain ⟨room, _, b, _, he⟩ := hx
    rw [← he]
  have hinner : ∀ seat : String,
      (sel.flatMap (fun room =>
        (roomBenches room_df room).map (fun b => (room, b, seat)))).Nodup := by
    intro seat
    rw [List.nodup_flatMap]
    constructor
    · intro room _
      apply List.Nodup.map ?_ (nodup_roomBenches _ _)
      intro b1 b2 hb
      simpa using hb
    · apply List.Pairwise.imp ?_ hnd
      intro r1 r2 hne x hx1 hx2
      simp only [List.mem_map] at hx1 hx2
      obtain ⟨b1, _, he1⟩ := hx1
      obtain ⟨b2, _, he2⟩ := hx2
      exact hne (congrArg (fun y : String × Int × String => y.1) (he1.trans he2.symm))
  have hdisj : ∀ s1 s2 : String, s1 ≠ s2 →
      List.Disjoint
        (sel.flatMap (fun room => (roomBenches room_df room).map (fun b => (room, b, s1))))
        (sel.flatMap (fun room => (roomBenches room_df room).map (fun b => (room, b, s2)))) := by
    intro s1 s2 hne x hx1 hx2
    exact hne ((hmem s1 x hx1).symm.trans (hmem s2 x hx2))
  unfold specBlockInterleavedOrder
  rw [List.nodup_flatMap]
  refine ⟨fun seat _ => hinner seat, ?_⟩
  refine List.Pairwise.cons ?_ (List.Pairwise.cons ?_ (List.Pairwise.cons ?_ List.Pairwise.nil))
  · intro s2 hs2
    refine hdisj "Left" s2 ?_
    fin_cases hs2
    all_goals decide

  · intro s2 hs2
    refine hdisj "Right" s2 ?_
    fin_cases hs2
    all_goals decide
  · intro s2 hs2
    exact absurd hs2 (List.not_mem_nil s2)

/-- C3 counterexample: selecting the same room twice (which the builder
accepts and expands again) duplicates every one of its `(room, bench, seat)`
triples, so a triple occurs in two slots, not exactly one. -/
theorem C3_counterexample :
    ¬ (∀ t ∈ slotTriples ((generate_seating [⟨"A", 1, 1⟩] [] ["A", "A"] false).getD []),
        ((slotTriples ((generate_seating [⟨"A", 1, 1⟩] [] ["A", "A"] false).getD [])).filter
          (fun x => x = t)).length = 1) := by
  decide

/-- C3 (amended): when the selected room ids are pairwise distinct and every
one is present in the capacity table, each `(room, bench, seat)` triple occurs
in exactly one slot of the builder's output, so the pivot projection has at
most one student per grid cell. (As stated the claim also covered duplicated
room ids, which `C3_counterexample` refutes.) -/
theorem C3_slot_uniqueness (room_df : List RoomRow) (students : List StudentRow)
    (selected_rooms : List String) (selectedDay : Bool)
    (hnd : selected_rooms.Nodup)
    (hv : ∀ room ∈ selected_rooms, (findRoomRow room_df room).isSome) :
    ∀ g, generate_seating room_df students selected_rooms selectedDay = some g →
      ∀ t ∈ slotTriples g, ((slotTriples g).filter (fun x => x = t)).length = 1 := by
  intro g hg t ht
  have hgeq := generate_seating_eq_of_valid room_df students selected_rooms selectedDay hv
  rw [hg] at hgeq
  have hgval := Option.some.inj hgeq
  rw [hgval, slotTriples_enum_fill] at ht ⊢
  exact length_filter_eq_one_of_nodup _ (nodup_spec room_df selected_rooms hnd) t ht

/-- Witness for C3 at a concrete duplicate-free selection. -/
theorem C3_slot_uniqueness_witness :
    (["A", "B"] : List String).Nodup ∧
    (∀ room ∈ ["A", "B"], (findRoomRow [⟨"A", 1, 2⟩, ⟨"B", 1, 1⟩] room).isSome) ∧
    (∀ g, generate_seating [⟨"A", 1, 2⟩, ⟨"B", 1, 1⟩] [] ["A", "B"] false = some g →
      ∀ t ∈ slotTriples g, ((slotTriples g).filter (fun x => x = t)).length = 1) :=
  ⟨by decide, by decide,
   C3_slot_uniqueness [⟨"A", 1, 2⟩, ⟨"B", 1, 1⟩] [] ["A", "B"] false (by decide) (by decide)⟩

/-! ## Demand Aggregator lemmas -/

/-- C4: in every `qp_count` row `QP_Needed` is exactly the number of
`qp_detail` rows sharing its (room, subject) key, and `hall_summary` is the
same grouped table with the count renamed — the two views are equivalent
computations of the same count. -/
theorem C4_qp_count_hall_equivalence (seating_df : List SeatSlot)
    (ordered_rooms : List String) :
    (∀ row ∈ (generate_summaries seating_df ordered_rooms).2.2.1,
      row.QP_Needed = ((generate_summaries seating_df ordered_rooms).2.1.filter
        (fun r => r.Room == row.Room && r.Subject == row.Subject)).length) ∧
    (generate_summaries seating_df ordered_rooms).2.2.2 =
      (generate_summaries seating_df ordered_rooms).2.2.1.map
        (fun row => { Room := row.Room, Subject := row.Subject,
                      TotalQPsNeeded := row.QP_Needed }) := by
  constructor
  · intro row hrow
    simp only [generate_summaries, qp_count_df, List.mem_map] at hrow
    obtain ⟨k, hk, hrow⟩ := hrow
    rw [← hrow]
    rfl
  · show hall_df (qpDetailRows seating_df) =
      (qp_count_df (qpDetailRows seating_df)).map _
    unfold hall_df qp_count_df groupKeys
    rw [List.map_map]
    apply List.map_congr_left
    intro k _
    rfl

/-- C7 counterexample: a seat grid with a seated student and no subject and a
non-empty room selection yields a non-empty `room_summary` (one row per
selected room), so not all four Demand Aggregator outputs are empty. -/
theorem C7_counterexample :
    (generate_summaries [⟨"A", 1, "Left", "X", "N", "-"⟩] ["A"]).1 ≠ [] := by
  decide

/-- C7 (amended): when no slot has any subject, the three subject-derived
outputs (`qp_detail`, `qp_count`, `hall_summary`) are empty with zero rows and
the outputs are still produced (never null/absent), but `room_summary` is not
empty: it keeps one row per selected room, with that room's seated-student
count and an empty `Subjects in Room` string. -/
theorem C7_no_subject_outputs (seating_df : List SeatSlot) (ordered_rooms : List String)
    (h : ∀ slot ∈ seating_df, slot.subjects = "-") :
    (generate_summaries seating_df ordered_rooms).2.1 = [] ∧
    (generate_summaries seating_df ordered_rooms).2.2.1 = [] ∧
    (generate_summaries seating_df ordered_rooms).2.2.2 = [] ∧
    (generate_summaries seating_df ordered_rooms).1 =
      ordered_rooms.map (fun room =>
        { Room := room,
          TotalStudents := ((seating_df.filter (fun r => r.Room == room)).filter
            (fun r => r.classNo ≠ "-")).length,
          SubjectsInRoom := "" }) := by
  have hfil : seating_df.filter (fun row => row.subjects ≠ "-") = [] := by
    apply List.filter_eq_nil_iff.mpr
    intro x hx
    simp [h x hx]
  have hdet : qpDetailRows seating_df = [] := by
    unfold qpDetailRows
    rw [hfil]
    rfl
  refine ⟨?_, ?_, ?_, ?_⟩
  · show qpDetailRows seating_df = []
    exact hdet
  · show qp_count_df (qpDetailRows seating_df) = []
    rw [hdet]
    rfl
  · show hall_df (qpDetailRows seating_df) = []
    rw [hdet]
    rfl
  · show room_summary seating_df ordered_rooms = _
    unfold room_summary
    apply List.map_congr_left
    intro room _
    have hsub : (seating_df.filter (fun r => r.Room == room)).filter
        (fun r => r.subjects ≠ "-") = [] := by
      apply List.filter_eq_nil_iff.mpr
      intro x hx
      simp [h x (List.mem_of_mem_filter hx)]
    simp only [hsub]
    rfl

/-- Witness for C7 at a concrete no-subject grid with one seated student. -/
theorem C7_no_subject_outputs_witness :
    (∀ slot ∈ ([⟨"A", 1, "Left", "X", "N", "-"⟩] : List SeatSlot), slot.subjects = "-") ∧
    ((generate_summaries [⟨"A", 1, "Left", "X", "N", "-"⟩] ["A"]).2.1 = [] ∧
     (generate_summaries [⟨"A", 1, "Left", "X", "N", "-"⟩] ["A"]).2.2.1 = [] ∧
     (generate_summaries [⟨"A", 1, "Left", "X", "N", "-"⟩] ["A"]).2.2.2 = [] ∧
     (generate_summaries [⟨"A", 1, "Left", "X", "N", "-"⟩] ["A"]).1 =
       ["A"].map (fun room =>
         { Room := room,
           TotalStudents := ((([⟨"A", 1, "Left", "X", "N", "-"⟩] : List SeatSlot).filter
             (fun r => r.Room == room)).filter (fun r => r.classNo ≠ "-")).length,
           SubjectsInRoom := "" })) :=
  ⟨by decide, C7_no_subject_outputs [⟨"A", 1, "Left", "X", "N", "-"⟩] ["A"] (by decide)⟩

/-! ## QP Bundle Assembler lemmas -/

theorem isEmpty_eq_false_of_ne_nil {α : Type} {l : List α} (h : l ≠ []) :
    l.isEmpty = false := by
  cases l with
  | nil => exact absurd rfl h
  | cons a t => rfl

theorem filter_replicate' {α : Type} (p : α → Bool) (a : α) (n : Nat) :
    (List.replicate n a).filter p = if p a then List.replicate n a else [] := by
  induction n with
  | zero => simp
  | succ m ih =>
    by_cases h : p a
    · rw [if_pos h] at ih ⊢
      rw [List.replicate_succ, List.filter_cons_of_pos h, ih]
    · rw [if_neg h] at ih ⊢
      rw [List.replicate_succ, List.filter_cons_of_neg h, ih]

theorem length_flatten_replicate {α : Type} (n : Nat) (P : List α) :
    ((List.replicate n P).flatten).length = n * P.length := by
  rw [List.length_flatten, List.map_replicate, List.sum_replicate, smul_eq_mul]

theorem flatten_replicate_ne_nil {α : Type} (n : Nat) (P : List α)
    (hn : 0 < n) (hP : P ≠ []) : (List.replicate n P).flatten ≠ [] := by
  intro h
  have hlen := congrArg List.length h
  rw [length_flatten_replicate] at hlen
  simp only [List.length_nil] at hlen
  have hPl : 0 < P.length := List.length_pos.mpr hP
  rcases Nat.mul_eq_zero.mp hlen with h0 | h0 <;> omega

theorem foldl_insertDistinct_of_mem {κ : Type} [DecidableEq κ] :
    ∀ (l : List κ) (acc : List κ), (∀ x ∈ l, x ∈ acc) →
      l.foldl insertDistinct acc = acc := by
  intro l
  induction l with
  | nil => intro acc _; rfl
  | cons a t ih =>
    intro acc h
    rw [List.foldl_cons, insertDistinct, if_pos (h a (List.mem_cons_self a t))]
    exact ih acc (fun x hx => h x (List.mem_cons_of_mem a hx))

theorem foldl_insertDistinct_replicate {κ : Type} [DecidableEq κ] (n : Nat) (a : κ)
    (acc : List κ) (ha : a ∈ acc) :
    (List.replicate n a).foldl insertDistinct acc = acc :=
  foldl_insertDistinct_of_mem _ acc
    (fun x hx => by rw [List.eq_of_mem_replicate hx]; exact ha)

theorem distinctFirst_replicate {κ : Type} [DecidableEq κ] (n : Nat) (a : κ)
    (hn : 0 < n) : distinctFirst (List.replicate n a) = [a] := by
  obtain ⟨m, rfl⟩ : ∃ m, n = m + 1 := ⟨n - 1, by omega⟩
  unfold distinctFirst
  rw [List.replicate_succ, List.foldl_cons, insertDistinct,
    if_neg (List.not_mem_nil a), List.nil_append]
  exact foldl_insertDistinct_replicate m a [a] (List.mem_singleton.mpr rfl)

theorem distinctFirst_replicate_append {κ : Type} [DecidableEq κ] (n m : Nat) (a b : κ)
    (hn : 0 < n) (hm : 0 < m) (hab : a ≠ b) :
    distinctFirst (List.replicate n a ++ List.replicate m b) = [a, b] := by
  unfold distinctFirst
  rw [List.foldl_append]
  have h1 : (List.replicate n a).foldl insertDistinct [] = [a] := by
    have := distinctFirst_replicate n a hn
    unfold distinctFirst at this
    exact this
  rw [h1]
  obtain ⟨k, rfl⟩ : ∃ k, m = k + 1 := ⟨m - 1, by omega⟩
  rw [List.replicate_succ, List.foldl_cons, insertDistinct,
    if_neg (by simp [hab.symm])]
  exact foldl_insertDistinct_of_mem _ _
    (fun x hx => by rw [List.eq_of_mem_replicate hx]; simp)

theorem value_counts_replicate (s : String) (n : Nat) (hn : 0 < n) :
    value_counts (List.replicate n s) = [(s, n)] := by
  unfold value_counts
  rw [distinctFirst_replicate n s hn]
  rw [List.map_cons, List.map_nil, filter_replicate']
  simp [insertionSort, insertSorted]

theorem assembleRoom_good_single {α : Type} (mapping : List MappingRow)
    (uploaded : List (String × List α)) (room s c : String) (P : List α) (n : Nat)
    (hm : firstQPCode mapping s = some c) (hu : lookupDict uploaded c = some P) :
    assembleRoom mapping uploaded room [(s, n)] =
      ((List.replicate n P).flatten, [⟨room, s, c, n⟩], []) := by
  simp [assembleRoom, assembleSubject, hm, hu]

theorem postSummary_singleton (r s c : String) (n : Nat) :
    postSummary [⟨r, s, c, n⟩] = [⟨r, s, c, n, n⟩] := by
  unfold postSummary
  rw [if_neg (by simp)]
  simp [distinctFirst, insertDistinct, insertionSort, insertSorted, List.filter]

/-- C5: a room whose demand for a subject is `n`, when the subject resolves to
a QP code with an uploaded `p`-page source PDF, gets exactly `n` full copies of
that PDF appended consecutively — `n * p` pages, each copy preserving page
order (`(List.replicate n P).flatten` is literally copy 1's pages, then copy
2's pages, and so on). -/
theorem C5_pdf_replication {α : Type} (r seat s c : String) (bnI : Int)
    (P : List α) (n : Nat) (mapping : List MappingRow)
    (uploaded : List (String × List α))
    (hn : 0 < n) (hP : P ≠ [])
    (hm : firstQPCode mapping s = some c)
    (hu : lookupDict uploaded c = some P) :
    generate_room_pdfs (some mapping) (List.replicate n ⟨r, bnI, seat, s⟩) uploaded [r] =
      ([(r, (List.replicate n P).flatten)], [⟨r, s, c, n, n⟩], []) ∧
    ((List.replicate n P).flatten).length = n * P.length := by
  have hune : uploaded ≠ [] := by
    intro he
    rw [he] at hu
    simp [lookupDict] at hu
  have hdet_ne : (List.replicate n (⟨r, bnI, seat, s⟩ : QPRecord)) ≠ [] := by
    simp only [ne_eq, List.replicate_eq_nil_iff]
    omega
  refine ⟨?_, length_flatten_replicate n P⟩
  have hfil : (List.replicate n (⟨r, bnI, seat, s⟩ : QPRecord)).filter
      (fun rec => rec.Room == r) = List.replicate n ⟨r, bnI, seat, s⟩ := by
    rw [filter_replicate']
    simp
  have hvc := value_counts_replicate s n hn
  have har := assembleRoom_good_single mapping uploaded r s c P n hm hu
  simp only [generate_room_pdfs, isEmpty_eq_false_of_ne_nil hdet_ne,
    isEmpty_eq_false_of_ne_nil hune, Bool.or_self, Bool.false_eq_true, if_false,
    List.foldl_cons, List.foldl_nil, processRoom, hfil, List.map_replicate, hvc, har,
    isEmpty_eq_false_of_ne_nil (flatten_replicate_ne_nil n P hn hP), List.nil_append,
    postSummary_singleton]

/-- Witness for C5: demand MATH×3 with a 2-page PDF yields the 6 pages
copy1-page1, copy1-page2, copy2-page1, copy2-page2, copy3-page1,
copy3-page2. -/
theorem C5_pdf_replication_witness :
    0 < 3 ∧ ([10, 20] : List Nat) ≠ [] ∧
    firstQPCode [⟨"Q1", "MATH"⟩] "MATH" = some "Q1" ∧
    lookupDict [("Q1", [10, 20])] "Q1" = some [10, 20] ∧
    (generate_room_pdfs (some [⟨"Q1", "MATH"⟩])
        (List.replicate 3 ⟨"RoomA", 1, "Left", "MATH"⟩) [("Q1", [10, 20])] ["RoomA"] =
      ([("RoomA", (List.replicate 3 [10, 20]).flatten)],
       [⟨"RoomA", "MATH", "Q1", 3, 3⟩], []) ∧
      ((List.replicate 3 ([10, 20] : List Nat)).flatten).length = 3 * 2) ∧
    (List.replicate 3 ([10, 20] : List Nat)).flatten = [10, 20, 10, 20, 10, 20] :=
  ⟨by decide, by decide, by decide, by decide,
   C5_pdf_replication "RoomA" "Left" "MATH" "Q1" 1 [10, 20] 3 [⟨"Q1", "MATH"⟩]
     [("Q1", [10, 20])] (by decide) (by decide) (by decide) (by decide),
   by decide⟩

theorem value_counts_replicate_append (s1 s2 : String) (n1 n2 : Nat)
    (h1 : 0 < n1) (h2 : 0 < n2) (hne : s1 ≠ s2) :
    value_counts (List.replicate n1 s1 ++ List.replicate n2 s2) =
      if n2 ≤ n1 then [(s1, n1), (s2, n2)] else [(s2, n2), (s1, n1)] := by
  unfold value_counts
  rw [distinctFirst_replicate_append n1 n2 s1 s2 h1 h2 hne]
  rw [List.map_cons, List.map_cons, List.map_nil]
  have hf1 : ((List.replicate n1 s1 ++ List.replicate n2 s2).filter
      (fun x => x == s1)).length = n1 := by
    rw [List.filter_append, filter_replicate', filter_replicate']
    simp [Ne.symm hne]
  have hf2 : ((List.replicate n1 s1 ++ List.replicate n2 s2).filter
      (fun x => x == s2)).length = n2 := by
    rw [List.filter_append, filter_replicate', filter_replicate']
    simp [hne]
  rw [hf1, hf2]
  by_cases h : n2 ≤ n1 <;> simp [insertionSort, insertSorted, h]

theorem assembleRoom_nocode_good {α : Type} (mapping : List MappingRow)
    (uploaded : List (String × List α)) (room s1 s2 c2 : String) (P2 : List α)
    (n1 n2 : Nat)
    (hm1 : firstQPCode mapping s1 = none)
    (hm2 : firstQPCode mapping s2 = some c2)
    (hu2 : lookupDict uploaded c2 = some P2) :
    assembleRoom mapping uploaded room [(s1, n1), (s2, n2)] =
      ((List.replicate n2 P2).flatten, [⟨room, s2, c2, n2⟩], [warnNoCode s1 room]) ∧
    assembleRoom mapping uploaded room [(s2, n2), (s1, n1)] =
      ((List.replicate n2 P2).flatten, [⟨room, s2, c2, n2⟩], [warnNoCode s1 room]) := by
  constructor
  · simp [assembleRoom, assembleSubject, hm1, hm2, hu2]
  · simp [assembleRoom, assembleSubject, hm1, hm2, hu2]

theorem assembleRoom_nopdf_good {α : Type} (mapping : List MappingRow)
    (uploaded : List (String × List α)) (room s3 s4 c3 c4 : String) (P4 : List α)
    (n3 n4 : Nat)
    (hm3 : firstQPCode mapping s3 = some c3)
    (hu3 : lookupDict uploaded c3 = none)
    (hm4 : firstQPCode mapping s4 = some c4)
    (hu4 : lookupDict uploaded c4 = some P4) :
    assembleRoom mapping uploaded room [(s3, n3), (s4, n4)] =
      ((List.replicate n4 P4).flatten, [⟨room, s4, c4, n4⟩], [warnNoPdf c3 s3 room]) ∧
    assembleRoom mapping uploaded room [(s4, n4), (s3, n3)] =
      ((List.replicate n4 P4).flatten, [⟨room, s4, c4, n4⟩], [warnNoPdf c3 s3 room]) := by
  constructor
  · simp [assembleRoom, assembleSubject, hm3, hu3, hm4, hu4]
  · simp [assembleRoom, assembleSubject, hm3, hu3, hm4, hu4]

theorem assembleRoom_nocode_single {α : Type} (mapping : List MappingRow)
    (uploaded : List (String × List α)) (room s : String) (n : Nat)
    (hm : firstQPCode mapping s = none) :
    assembleRoom mapping uploaded room [(s, n)] = ([], [], [warnNoCode s room]) := by
  simp [assembleRoom, assembleSubject, hm]

theorem postSummary_two (r1 s2 c2 r2 s4 c4 : String) (n2 n4 : Nat)
    (hr : r1 ≠ r2) (hsort : strLtB r2 r1 = false) :
    postSummary [⟨r1, s2, c2, n2⟩, ⟨r2, s4, c4, n4⟩] =
      [⟨r1, s2, c2, n2, n2⟩, ⟨r2, s4, c4, n4, n4⟩] := by
  have hb21 : ((r2 : String) == r1) = false := beq_eq_false_iff_ne.mpr (Ne.symm hr)
  have hb12 : ((r1 : String) == r2) = false := beq_eq_false_iff_ne.mpr hr
  have hkey : ((r2, s4, c4) : String × String × String) ≠ (r1, s2, c2) := by
    intro h
    exact (Ne.symm hr) (congrArg Prod.fst h)
  unfold postSummary
  rw [if_neg (by simp)]
  simp only [List.map_cons, List.map_nil]
  have hdf : distinctFirst [((r1, s2, c2) : String × String × String), (r2, s4, c4)] =
      [(r1, s2, c2), (r2, s4, c4)] := by
    unfold distinctFirst
    rw [List.foldl_cons, List.foldl_cons, List.foldl_nil]
    have h1 : insertDistinct ([] : List (String × String × String)) (r1, s2, c2) =
        [(r1, s2, c2)] := by
      rw [insertDistinct, if_neg (List.not_mem_nil _)]
      rfl
    rw [h1, insertDistinct, if_neg (by simp [hkey])]
    rfl
  rw [hdf]
  have hle : tripleLeB (r1, s2, c2) (r2, s4, c4) = true := by
    unfold tripleLeB tripleLtB
    rw [hsort, hb21]
    rfl
  simp only [insertionSort, insertSorted, List.foldl_nil, hle, if_true]
  simp [List.filter, hb21, hb12]

/-- C6: unresolvable subjects are skipped with a warning and excluded from
both the room PDF and the `room_qp_summary` rows while resolvable subjects in
the same room are still bundled; a subject can fail either by having no
mapping row (room `r1`, subject `s1`) or by its mapped code having no uploaded
PDF (room `r2`, subject `s3`); a room with zero assembled pages (`r3`) is
absent from the output map rather than present with empty bytes; and no
failure aborts the batch — the call still returns all three outputs. -/
theorem C6_skip_and_warn {α : Type}
    (mapping : List MappingRow) (uploaded : List (String × List α))
    (r1 r2 r3 s1 s2 s3 s4 s5 c2 c3 c4 seat : String) (bnI : Int)
    (P2 P4 : List α) (n1 n2 n3 n4 n5 : Nat)
    (hn1 : 0 < n1) (hn2 : 0 < n2) (hn3 : 0 < n3) (hn4 : 0 < n4) (hn5 : 0 < n5)
    (hs12 : s1 ≠ s2) (hs34 : s3 ≠ s4)
    (hr12 : r1 ≠ r2) (hr13 : r1 ≠ r3) (hr23 : r2 ≠ r3)
    (hsort : strLtB r2 r1 = false)
    (hm1 : mapping.filter (fun m => m.SubjectName == s1) = [])
    (hm2 : firstQPCode mapping s2 = some c2)
    (hm3 : firstQPCode mapping s3 = some c3)
    (hm4 : firstQPCode mapping s4 = some c4)
    (hm5 : mapping.filter (fun m => m.SubjectName == s5) = [])
    (hu2 : lookupDict uploaded c2 = some P2)
    (hu3 : lookupDict uploaded c3 = none)
    (hu4 : lookupDict uploaded c4 = some P4)
    (hP2 : P2 ≠ []) (hP4 : P4 ≠ []) :
    generate_room_pdfs (some mapping)
        (List.replicate n1 (⟨r1, bnI, seat, s1⟩ : QPRecord) ++ List.replicate n2 (⟨r1, bnI, seat, s2⟩ : QPRecord) ++
         List.replicate n3 (⟨r2, bnI, seat, s3⟩ : QPRecord) ++ List.replicate n4 (⟨r2, bnI, seat, s4⟩ : QPRecord) ++
         List.replicate n5 (⟨r3, bnI, seat, s5⟩ : QPRecord)) uploaded [r1, r2, r3] =
      ([(r1, (List.replicate n2 P2).flatten), (r2, (List.replicate n4 P4).flatten)],
       [⟨r1, s2, c2, n2, n2⟩, ⟨r2, s4, c4, n4, n4⟩],
       [warnNoCode s1 r1, warnNoPdf c3 s3 r2, warnNoCode s5 r3]) ∧
    lookupDict (generate_room_pdfs (some mapping)
        (List.replicate n1 (⟨r1, bnI, seat, s1⟩ : QPRecord) ++ List.replicate n2 (⟨r1, bnI, seat, s2⟩ : QPRecord) ++
         List.replicate n3 (⟨r2, bnI, seat, s3⟩ : QPRecord) ++ List.replicate n4 (⟨r2, bnI, seat, s4⟩ : QPRecord) ++
         List.replicate n5 (⟨r3, bnI, seat, s5⟩ : QPRecord)) uploaded [r1, r2, r3]).1 r3 = none := by
  have hm1' : firstQPCode mapping s1 = none := by
    rw [firstQPCode, hm1]
    rfl
  have hm5' : firstQPCode mapping s5 = none := by
    rw [firstQPCode, hm5]
    rfl
  have hb21 : ((r2 : String) == r1) = false := beq_eq_false_iff_ne.mpr (Ne.symm hr12)
  have hb12 : ((r1 : String) == r2) = false := beq_eq_false_iff_ne.mpr hr12
  have hb31 : ((r3 : String) == r1) = false := beq_eq_false_iff_ne.mpr (Ne.symm hr13)
  have hb13 : ((r1 : String) == r3) = false := beq_eq_false_iff_ne.mpr hr13
  have hb32 : ((r3 : String) == r2) = false := beq_eq_false_iff_ne.mpr (Ne.symm hr23)
  have hb23 : ((r2 : String) == r3) = false := beq_eq_false_iff_ne.mpr hr23
  have hfil1 : ((List.replicate n1 (⟨r1, bnI, seat, s1⟩ : QPRecord) ++
      List.replicate n2 (⟨r1, bnI, seat, s2⟩ : QPRecord) ++ List.replicate n3 (⟨r2, bnI, seat, s3⟩ : QPRecord) ++
      List.replicate n4 (⟨r2, bnI, seat, s4⟩ : QPRecord) ++ List.replicate n5 (⟨r3, bnI, seat, s5⟩ : QPRecord)).filter
        (fun rec => rec.Room == r1)) =
      List.replicate n1 (⟨r1, bnI, seat, s1⟩ : QPRecord) ++
        List.replicate n2 (⟨r1, bnI, seat, s2⟩ : QPRecord) := by
    simp [List.filter_append, filter_replicate', hb21, hb31]
  have hfil2 : ((List.replicate n1 (⟨r1, bnI, seat, s1⟩ : QPRecord) ++
      List.replicate n2 (⟨r1, bnI, seat, s2⟩ : QPRecord) ++ List.replicate n3 (⟨r2, bnI, seat, s3⟩ : QPRecord) ++
      List.replicate n4 (⟨r2, bnI, seat, s4⟩ : QPRecord) ++ List.replicate n5 (⟨r3, bnI, seat, s5⟩ : QPRecord)).filter
        (fun rec => rec.Room == r2)) =
      List.replicate n3 (⟨r2, bnI, seat, s3⟩ : QPRecord) ++
        List.replicate n4 (⟨r2, bnI, seat, s4⟩ : QPRecord) := by
    simp [List.filter_append, filter_replicate', hb12, hb32]
  have hfil3 : ((List.replicate n1 (⟨r1, bnI, seat, s1⟩ : QPRecord) ++
      List.replicate n2 (⟨r1, bnI, seat, s2⟩ : QPRecord) ++ List.replicate n3 (⟨r2, bnI, seat, s3⟩ : QPRecord) ++
      List.replicate n4 (⟨r2, bnI, seat, s4⟩ : QPRecord) ++ List.replicate n5 (⟨r3, bnI, seat, s5⟩ : QPRecord)).filter
        (fun rec => rec.Room == r3)) =
      List.replicate n5 (⟨r3, bnI, seat, s5⟩ : QPRecord) := by
    simp [List.filter_append, filter_replicate', hb13, hb23]
  have hroom1 : assembleRoom mapping uploaded r1
      (value_counts (List.replicate n1 s1 ++ List.replicate n2 s2)) =
      ((List.replicate n2 P2).flatten, [⟨r1, s2, c2, n2⟩], [warnNoCode s1 r1]) := by
    rw [value_counts_replicate_append s1 s2 n1 n2 hn1 hn2 hs12]
    by_cases hc : n2 ≤ n1
    · rw [if_pos hc]
      exact (assembleRoom_nocode_good mapping uploaded r1 s1 s2 c2 P2 n1 n2
        hm1' hm2 hu2).1
    · rw [if_neg hc]
      exact (assembleRoom_nocode_good mapping uploaded r1 s1 s2 c2 P2 n1 n2
        hm1' hm2 hu2).2
  have hroom2 : assembleRoom mapping uploaded r2
      (value_counts (List.replicate n3 s3 ++ List.replicate n4 s4)) =
      ((List.replicate n4 P4).flatten, [⟨r2, s4, c4, n4⟩], [warnNoPdf c3 s3 r2]) := by
    rw [value_counts_replicate_append s3 s4 n3 n4 hn3 hn4 hs34]
    by_cases hc : n4 ≤ n3
    · rw [if_pos hc]
      exact (assembleRoom_nopdf_good mapping uploaded r2 s3 s4 c3 c4 P4 n3 n4
        hm3 hu3 hm4 hu4).1
    · rw [if_neg hc]
      exact (assembleRoom_nopdf_good mapping uploaded r2 s3 s4 c3 c4 P4 n3 n4
        hm3 hu3 hm4 hu4).2
  have hroom3 : assembleRoom mapping uploaded r3
      (value_counts (List.replicate n5 s5)) = ([], [], [warnNoCode s5 r3]) := by
    rw [value_counts_replicate s5 n5 hn5]
    exact assembleRoom_nocode_single mapping uploaded r3 s5 n5 hm5'
  have hdet_ne : (List.replicate n1 (⟨r1, bnI, seat, s1⟩ : QPRecord) ++
      List.replicate n2 (⟨r1, bnI, seat, s2⟩ : QPRecord) ++ List.replicate n3 (⟨r2, bnI, seat, s3⟩ : QPRecord) ++
      List.replicate n4 (⟨r2, bnI, seat, s4⟩ : QPRecord) ++ List.replicate n5 (⟨r3, bnI, seat, s5⟩ : QPRecord)) ≠ [] := by
    simp only [ne_eq, List.append_eq_nil, List.replicate_eq_nil_iff]
    omega
  have hune : uploaded ≠ [] := by
    intro he
    rw [he] at hu2
    simp [lookupDict] at hu2
  have h1ne : (List.replicate n1 (⟨r1, bnI, seat, s1⟩ : QPRecord) ++
      List.replicate n2 (⟨r1, bnI, seat, s2⟩ : QPRecord)) ≠ [] := by
    simp only [ne_eq, List.append_eq_nil, List.replicate_eq_nil_iff]
    omega
  have h2ne : (List.replicate n3 (⟨r2, bnI, seat, s3⟩ : QPRecord) ++
      List.replicate n4 (⟨r2, bnI, seat, s4⟩ : QPRecord)) ≠ [] := by
    simp only [ne_eq, List.append_eq_nil, List.replicate_eq_nil_iff]
    omega
  have h3ne : (List.replicate n5 (⟨r3, bnI, seat, s5⟩ : QPRecord)) ≠ [] := by
    simp only [ne_eq, List.replicate_eq_nil_iff]
    omega
  have hmain : generate_room_pdfs (some mapping)
      (List.replicate n1 (⟨r1, bnI, seat, s1⟩ : QPRecord) ++ List.replicate n2 (⟨r1, bnI, seat, s2⟩ : QPRecord) ++
       List.replicate n3 (⟨r2, bnI, seat, s3⟩ : QPRecord) ++ List.replicate n4 (⟨r2, bnI, seat, s4⟩ : QPRecord) ++
       List.replicate n5 (⟨r3, bnI, seat, s5⟩ : QPRecord)) uploaded [r1, r2, r3] =
      ([(r1, (List.replicate n2 P2).flatten), (r2, (List.replicate n4 P4).flatten)],
       [⟨r1, s2, c2, n2, n2⟩, ⟨r2, s4, c4, n4, n4⟩],
       [warnNoCode s1 r1, warnNoPdf c3 s3 r2, warnNoCode s5 r3]) := by
    simp only [generate_room_pdfs, isEmpty_eq_false_of_ne_nil hdet_ne,
      isEmpty_eq_false_of_ne_nil hune, Bool.or_self, Bool.false_eq_true, if_false,
      List.foldl_cons, List.foldl_nil, processRoom, hfil1, hfil2, hfil3,
      isEmpty_eq_false_of_ne_nil h1ne, isEmpty_eq_false_of_ne_nil h2ne,
      isEmpty_eq_false_of_ne_nil h3ne, List.map_append, List.map_replicate,
      hroom1, hroom2, hroom3,
      isEmpty_eq_false_of_ne_nil (flatten_replicate_ne_nil n2 P2 hn2 hP2),
      isEmpty_eq_false_of_ne_nil (flatten_replicate_ne_nil n4 P4 hn4 hP4),
      List.isEmpty_nil, if_true, List.nil_append, List.append_nil,
      List.singleton_append, List.cons_append,
      postSummary_two r1 s2 c2 r2 s4 c4 n2 n4 hr12 hsort]
  refine ⟨hmain, ?_⟩
  rw [hmain]
  simp [lookupDict, hb13, hb23]

/-- Witness for C6: rooms R1 (subject S1 unmapped, S2 bundled), R2 (S3 mapped
to an un-uploaded code, S4 bundled) and R3 (only an unmapped subject, so no
PDF entry at all), with the three warnings in room order. -/
theorem C6_skip_and_warn_witness :
    generate_room_pdfs (some [⟨"Q2", "S2"⟩, ⟨"Q3", "S3"⟩, ⟨"Q4", "S4"⟩])
        (List.replicate 1 ⟨"R1", 1, "Left", "S1"⟩ ++
         List.replicate 2 ⟨"R1", 1, "Left", "S2"⟩ ++
         List.replicate 1 ⟨"R2", 1, "Left", "S3"⟩ ++
         List.replicate 3 ⟨"R2", 1, "Left", "S4"⟩ ++
         List.replicate 1 ⟨"R3", 1, "Left", "S5"⟩)
        [("Q2", [1, 2]), ("Q4", [7])] ["R1", "R2", "R3"] =
      ([("R1", (List.replicate 2 [1, 2]).flatten), ("R2", (List.replicate 3 [7]).flatten)],
       [⟨"R1", "S2", "Q2", 2, 2⟩, ⟨"R2", "S4", "Q4", 3, 3⟩],
       [warnNoCode "S1" "R1", warnNoPdf "Q3" "S3" "R2", warnNoCode "S5" "R3"]) ∧
    lookupDict (generate_room_pdfs (some [⟨"Q2", "S2"⟩, ⟨"Q3", "S3"⟩, ⟨"Q4", "S4"⟩])
        (List.replicate 1 ⟨"R1", 1, "Left", "S1"⟩ ++
         List.replicate 2 ⟨"R1", 1, "Left", "S2"⟩ ++
         List.replicate 1 ⟨"R2", 1, "Left", "S3"⟩ ++
         List.replicate 3 ⟨"R2", 1, "Left", "S4"⟩ ++
         List.replicate 1 ⟨"R3", 1, "Left", "S5"⟩)
        [("Q2", [1, 2]), ("Q4", [7])] ["R1", "R2", "R3"]).1 "R3" = none :=
  C6_skip_and_warn [⟨"Q2", "S2"⟩, ⟨"Q3", "S3"⟩, ⟨"Q4", "S4"⟩]
    [("Q2", [1, 2]), ("Q4", [7])] "R1" "R2" "R3" "S1" "S2" "S3" "S4" "S5"
    "Q2" "Q3" "Q4" "Left" 1 [1, 2] [7] 1 2 1 3 1
    (by decide) (by decide) (by decide) (by decide) (by decide)
    (by decide) (by decide) (by decide) (by decide) (by decide)
    (by decide) (by decide) (by decide) (by decide) (by decide) (by decide)
    (by decide) (by decide) (by decide) (by decide) (by decide)

/-! ## Determinism -/

/-- C8: the Seat Grid Builder, Demand Aggregator and QP Bundle Assembler are
each deterministic pure functions of their inputs: any two calls with equal
inputs return equal outputs. In this embedding each component is a total
function of its arguments — the source performs no I/O or randomness in
computing its outputs, and the `st.warning` side channel is reified into the
returned warning list — so referential transparency holds. -/
theorem C8_referential_transparency :
    (∀ (room_df room_df2 : List RoomRow) (students students2 : List StudentRow)
       (sel sel2 : List String) (day day2 : Bool),
       room_df = room_df2 → students = students2 → sel = sel2 → day = day2 →
       generate_seating room_df students sel day =
         generate_seating room_df2 students2 sel2 day2) ∧
    (∀ (df df2 : List SeatSlot) (rooms rooms2 : List String),
       df = df2 → rooms = rooms2 →
       generate_summaries df rooms = generate_summaries df2 rooms2) ∧
    (∀ (α : Type) (m m2 : Option (List MappingRow)) (q q2 : List QPRecord)
       (u u2 : List (String × List α)) (rooms rooms2 : List String),
       m = m2 → q = q2 → u = u2 → rooms = rooms2 →
       generate_room_pdfs m q u rooms = generate_room_pdfs m2 q2 u2 rooms2) := by
  refine ⟨?_, ?_, ?_⟩ <;> intros <;> subst_vars <;> rfl

/-- Witness for C8: each component run twice on one concrete input gives the
same output. -/
theorem C8_referential_transparency_witness :
    generate_seating [⟨"A", 1, 1⟩] [] ["A"] false =
      generate_seating [⟨"A", 1, 1⟩] [] ["A"] false ∧
    generate_summaries [] ["A"] = generate_summaries [] ["A"] ∧
    generate_room_pdfs (none : Option (List MappingRow)) []
        ([] : List (String × List Nat)) [] =
      generate_room_pdfs (none : Option (List MappingRow)) []
        ([] : List (String × List Nat)) [] :=
  ⟨C8_referential_transparency.1 [⟨"A", 1, 1⟩] [⟨"A", 1, 1⟩] [] [] ["A"] ["A"] false false
     rfl rfl rfl rfl,
   C8_referential_transparency.2.1 [] [] ["A"] ["A"] rfl rfl,
   C8_referential_transparency.2.2 Nat none none [] [] [] [] [] [] rfl rfl rfl rfl⟩

end SeatMaster
